import Mathlib

/-!
Verification of the pick-request coordinator of the
ProductReversePickRequest repository.

The definitions below are a shallow embedding of the Python sources:

* `app/db/models.py` — request/item state and derived properties;
* `app/services/pick_request_service.py` — the coordinator operations;
* `app/services/cleanup_service.py` — the reaper (`release_stale_locks`);
* `app/websockets/picker.py` — scan auto-increment and manual update;
* `app/utils/validators.py` — `RequestNameValidator.validate`.

Conventions of the embedding:

* Python `datetime.utcnow()` is abstracted as a `Nat` instant passed in as a
  `now` parameter; comparisons of instants use `Nat` order.
* Python ints are `Int` (quantities may in principle be negative in the code,
  and the code contains an explicit `new_qty < 0` clamp).
* Fallible service methods return `Except AppError α`; raising an exception in
  Python rolls the transaction back, so the error branch carries no new state.
* `app/core/exceptions.py` defines factory functions for every error the
  service raises EXCEPT `item_not_found` and `validation_error`: the service's
  calls `exceptions.item_not_found(upc)` and `exceptions.validation_error(...)`
  hit a missing module attribute and raise Python `AttributeError`.  These two
  code paths are embedded as the distinguished error
  `AppError.attribute_error <missing name>`.
* The `request.locker.username` lookup used in error payloads is a relational
  join to the users table; the embedding carries the claimant user id instead
  (`lockerName`), since no claim inspects the username itself.
* Fields of the ORM models that no embedded operation reads or writes
  (`priority`, `created_at`, the surrogate item id) are omitted from the state.
-/

/-- Request lifecycle states, from `RequestStatus` in `app/db/models.py`. -/
inductive RequestStatus
  | pending
  | in_progress
  | paused
  | partially_completed
  | completed
  | cancelled
deriving DecidableEq, Repr

/-- String value of a status, as used in `INVALID_STATUS` error payloads. -/
def statusValue : RequestStatus → String
  | .pending => "pending"
  | .in_progress => "in_progress"
  | .paused => "paused"
  | .partially_completed => "partially_completed"
  | .completed => "completed"
  | .cancelled => "cancelled"

/-- Shortage reasons, from `ShortageReason` in `app/db/models.py`. -/
inductive ShortageReason
  | out_of_stock
  | damaged
  | expired
  | not_found
  | other
deriving DecidableEq, Repr

/-- One line of a pick request, from `PickRequestItem` in `app/db/models.py`. -/
structure PickRequestItem where
  upc : String
  product_name : String
  requested_qty : Int
  picked_qty : Int
  shortage_reason : Option ShortageReason
  shortage_notes : Option String
deriving DecidableEq, Repr

/-- Acting principal.  The service methods embedded here consult only the
user's id, username and admin flag (role capabilities are enforced by the
transport dependencies, not by these methods). -/
structure User where
  id : String
  username : String
  is_admin : Bool
deriving DecidableEq, Repr

/-- A pick request row with its items, from `PickRequest` in
`app/db/models.py`.  Timestamps are abstract `Nat` instants. -/
structure PickRequest where
  name : String
  status : RequestStatus
  created_by : String
  locked_by : Option String
  notes : Option String
  started_at : Option Nat
  completed_at : Option Nat
  last_activity_at : Option Nat
  items : List PickRequestItem
deriving DecidableEq, Repr

/-- Property `PickRequestItem.has_shortage`: `picked_qty < requested_qty`. -/
def PickRequestItem.has_shortage (i : PickRequestItem) : Bool :=
  i.picked_qty < i.requested_qty

/-- Property `PickRequestItem.remaining`:
`max(0, requested_qty - picked_qty)`. -/
def PickRequestItem.remaining (i : PickRequestItem) : Int :=
  max 0 (i.requested_qty - i.picked_qty)

/-- Property `PickRequest.has_shortages`: some item has a shortage. -/
def PickRequest.has_shortages (r : PickRequest) : Bool :=
  r.items.any (fun i => i.has_shortage)

/-- Property `PickRequest.is_locked`: `locked_by is not None`. -/
def PickRequest.is_locked (r : PickRequest) : Bool :=
  r.locked_by.isSome

/-- Method `PickRequest.is_locked_by`: `locked_by == user_id`. -/
def PickRequest.is_locked_by (r : PickRequest) (user_id : String) : Bool :=
  r.locked_by = some user_id

/-- Identity put into `REQUEST_LOCKED` payloads.  The source resolves
`request.locker.username` (or `"unknown"`); the embedding reports the
claimant id, which no claim inspects. -/
def lockerName (r : PickRequest) : String :=
  r.locked_by.getD "unknown"

/-- Errors raised by the embedded operations, from `app/core/exceptions.py`.
`attribute_error name` models the Python `AttributeError` raised when the
service accesses `exceptions.<name>` for a factory function that
`app/core/exceptions.py` does not define (`item_not_found`,
`validation_error`). -/
inductive AppError
  | request_locked (locked_by : String)
  | invalid_status (current : String) (expected : String)
  | quantity_exceeded (remaining : Int)
  | forbidden (message : String)
  | attribute_error (missing_name : String)
deriving DecidableEq, Repr

deriving instance DecidableEq for Except

/-- Method `PickRequestService._verify_lock`: the request must be
`in_progress` and the acting user must hold the lock, unless admin. -/
def verify_lock (r : PickRequest) (u : User) : Except AppError Unit :=
  if r.status ≠ .in_progress then
    .error (.invalid_status (statusValue r.status) "in_progress")
  else if ¬ r.is_locked_by u.id ∧ ¬ u.is_admin then
    .error (.request_locked (lockerName r))
  else
    .ok ()

/-- Method `PickRequestService.start_picking`.  Note that `started_at` is
assigned unconditionally. -/
def start_picking (now : Nat) (u : User) (r : PickRequest) :
    Except AppError PickRequest :=
  if r.status ≠ .pending then
    .error (.invalid_status (statusValue r.status) "pending")
  else if r.is_locked then
    .error (.request_locked (lockerName r))
  else
    .ok { r with
      status := .in_progress
      locked_by := some u.id
      started_at := some now
      last_activity_at := some now }

/-- Method `PickRequestService.pause_picking`. -/
def pause_picking (now : Nat) (u : User) (r : PickRequest) :
    Except AppError PickRequest :=
  match verify_lock r u with
  | .error e => .error e
  | .ok _ =>
    .ok { r with status := .paused, last_activity_at := some now }

/-- Payload of `update_item_quantity`, from schema `ItemQuantityUpdate` in
`app/schemas/pick_request.py`.  The pydantic model validator makes the two
modes mutually exclusive, so an inductive with one constructor per mode is
faithful; the field bounds (`picked_qty ≥ 0`, `increment ≥ 1`) are pydantic
constraints and appear as hypotheses in the theorems. -/
inductive ItemQuantityUpdate
  | absolute (picked_qty : Int)
  | increment (amount : Int)
deriving DecidableEq, Repr

/-- Replace the first item whose `upc` matches (the source mutates the item
found by a first-match loop; UPCs are unique within a request because
`PickRequestCreate` rejects duplicates). -/
def setFirstItem (upc : String) (f : PickRequestItem → PickRequestItem) :
    List PickRequestItem → List PickRequestItem
  | [] => []
  | i :: rest =>
    if i.upc = upc then f i :: rest else i :: setFirstItem upc f rest

/-- Method `PickRequestService.update_item_quantity`.  The unknown-UPC branch
is `raise exceptions.item_not_found(upc)` in the source, which raises
`AttributeError` because no such factory exists. -/
def update_item_quantity (now : Nat) (upc : String)
    (update : ItemQuantityUpdate) (u : User) (r : PickRequest) :
    Except AppError PickRequest :=
  match verify_lock r u with
  | .error e => .error e
  | .ok _ =>
    match r.items.find? (fun i => i.upc = upc) with
    | none => .error (.attribute_error "item_not_found")
    | some item =>
      let new_qty := match update with
        | .absolute n => n
        | .increment k => item.picked_qty + k
      if new_qty > item.requested_qty then
        .error (.quantity_exceeded item.remaining)
      else
        let clamped := if new_qty < 0 then 0 else new_qty
        .ok { r with
          items := setFirstItem upc (fun i => { i with picked_qty := clamped }) r.items
          last_activity_at := some now }

/-- Method `PickRequestService.submit_request` (the log-writer call and the
returned log path are outside the embedded state).  The missing-reason branch
is `raise exceptions.validation_error(...)` in the source, which raises
`AttributeError` because no such factory exists.  Note that `locked_by` is
not cleared on either outcome, and no check concerns
`shortage_reason = other` with empty notes. -/
def submit_request (now : Nat) (u : User) (validate_shortages : Bool)
    (r : PickRequest) : Except AppError PickRequest :=
  match verify_lock r u with
  | .error e => .error e
  | .ok _ =>
    if r.has_shortages ∧ validate_shortages ∧
        (r.items.find? (fun i => i.has_shortage ∧ i.shortage_reason = none)).isSome then
      .error (.attribute_error "validation_error")
    else
      .ok { r with
        status := if r.has_shortages then .partially_completed else .completed
        completed_at := some now
        last_activity_at := some now }

/-- Payload of `set_item_shortage`, from schema `ItemShortageUpdate`.  The
pydantic validator additionally requires non-blank notes when the reason is
`other`; that constraint is transport-side and appears as a hypothesis where
a claim needs it. -/
structure ItemShortageUpdate where
  shortage_reason : ShortageReason
  shortage_notes : Option String
deriving DecidableEq, Repr

/-- Method `PickRequestService.set_item_shortage`.  The unknown-UPC branch
raises `AttributeError` as in `update_item_quantity`. -/
def set_item_shortage (now : Nat) (upc : String) (update : ItemShortageUpdate)
    (u : User) (r : PickRequest) : Except AppError PickRequest :=
  match verify_lock r u with
  | .error e => .error e
  | .ok _ =>
    match r.items.find? (fun i => i.upc = upc) with
    | none => .error (.attribute_error "item_not_found")
    | some _ =>
      .ok { r with
        items := setFirstItem upc (fun i =>
          { i with
            shortage_reason := some update.shortage_reason
            shortage_notes := update.shortage_notes }) r.items
        last_activity_at := some now }

/-- One entry of the `shortage_data` list taken by `submit_with_shortages`;
the source reads it with `dict.get`, so every field may be absent. -/
structure ShortageData where
  upc : Option String
  shortage_reason : Option ShortageReason
  shortage_notes : Option String
deriving DecidableEq, Repr

/-- Application of one `shortage_data` entry inside
`submit_with_shortages`: writes reason and notes iff the upc names an item
and the reason is truthy. -/
def applyShortageData (sd : ShortageData) (items : List PickRequestItem) :
    List PickRequestItem :=
  match sd.upc, sd.shortage_reason with
  | some upc, some reason =>
    if (items.find? (fun i => i.upc = upc)).isSome then
      setFirstItem upc (fun i =>
        { i with
          shortage_reason := some reason
          shortage_notes := sd.shortage_notes }) items
    else items
  | _, _ => items

/-- Method `PickRequestService.submit_with_shortages`: applies the shortage
entries, then submits with `validate_shortages := true`.  (This method has no
transport caller in the repository; it is embedded because the shortage
entries bypass the pydantic notes-for-other validation.) -/
def submit_with_shortages (now : Nat) (u : User)
    (shortage_data : List ShortageData) (r : PickRequest) :
    Except AppError PickRequest :=
  match verify_lock r u with
  | .error e => .error e
  | .ok _ =>
    let r := { r with
      items := shortage_data.foldl (fun its sd => applyShortageData sd its) r.items
      last_activity_at := some now }
    submit_request now u true r

/-- Method `PickRequestService.release_lock`.  `started_at` is preserved;
the ownership check precedes the status check. -/
def release_lock (now : Nat) (u : User) (r : PickRequest) :
    Except AppError PickRequest :=
  if ¬ u.is_admin ∧ r.locked_by ≠ some u.id then
    .error (.forbidden "Only lock holder or admin can release")
  else if r.status ≠ .in_progress ∧ r.status ≠ .paused ∧
      r.status ≠ .partially_completed then
    .error (.invalid_status (statusValue r.status)
      "in_progress, paused, or partially_completed")
  else
    .ok { r with
      status := .pending
      locked_by := none
      last_activity_at := some now }

/-- Method `PickRequestService.resume_picking`. -/
def resume_picking (now : Nat) (u : User) (r : PickRequest) :
    Except AppError PickRequest :=
  if r.status ≠ .paused ∧ r.status ≠ .partially_completed then
    .error (.invalid_status (statusValue r.status) "paused or partially_completed")
  else if r.status = .paused ∧ r.is_locked ∧ ¬ r.is_locked_by u.id ∧
      ¬ u.is_admin then
    .error (.request_locked (lockerName r))
  else
    .ok { r with
      status := .in_progress
      locked_by := some u.id
      last_activity_at := some now }

/-- Method `PickRequestService.cancel_request`.  The ownership check precedes
the status check. -/
def cancel_request (now : Nat) (u : User) (r : PickRequest) :
    Except AppError PickRequest :=
  if ¬ u.is_admin ∧ r.created_by ≠ u.id then
    .error (.forbidden "Only request creator or admin can cancel")
  else if r.status = .completed ∨ r.status = .cancelled then
    .error (.invalid_status (statusValue r.status)
      "pending, in_progress, paused, or partially_completed")
  else
    .ok { r with
      status := .cancelled
      locked_by := none
      last_activity_at := some now }

/-- Method `PickRequestService.approve_request`.  Note that `completed_at` is
assigned again at approval time and `locked_by` is not cleared; the ownership
check precedes the status check. -/
def approve_request (now : Nat) (u : User) (notes : Option String)
    (r : PickRequest) : Except AppError PickRequest :=
  if ¬ u.is_admin ∧ r.created_by ≠ u.id then
    .error (.forbidden "Only request creator or admin can approve")
  else if r.status ≠ .partially_completed then
    .error (.invalid_status (statusValue r.status) "partially_completed")
  else
    let r := { r with
      status := .completed
      completed_at := some now
      last_activity_at := some now }
    .ok (match notes with
      | some s =>
        if s ≠ "" then
          { r with notes := some ((r.notes.getD "") ++ "\n[APPROVED by " ++
              u.username ++ "]: " ++ s) }
        else r
      | none => r)

/-- Method `PickRequestService.delete_request` (row removal; only the guard
outcome is state-relevant).  The ownership check precedes the status check. -/
def delete_request (u : User) (r : PickRequest) : Except AppError Unit :=
  if ¬ u.is_admin ∧ r.created_by ≠ u.id then
    .error (.forbidden "Only owner or admin can delete")
  else if r.status ≠ .pending then
    .error (.invalid_status (statusValue r.status) "pending")
  else
    .ok ()

/-- Staleness test of `CleanupService.release_stale_locks`: the row is
selected iff `status == IN_PROGRESS` and `last_activity_at < threshold`,
where `threshold = now - timeout_minutes` (a SQL NULL comparison selects
nothing, hence `none` is not stale). -/
def isStale (threshold : Nat) (r : PickRequest) : Bool :=
  decide (r.status = RequestStatus.in_progress) &&
    match r.last_activity_at with
    | some t => decide (t < threshold)
    | none => false

/-- Per-row effect of `CleanupService.release_stale_locks`: the source sets
status to pending and assigns `None` to `locked_by`, `started_at` AND
`last_activity_at`; items are untouched. -/
def releaseStaleOne (r : PickRequest) : PickRequest :=
  { r with
    status := .pending
    locked_by := none
    started_at := none
    last_activity_at := none }

/-- Method `CleanupService.release_stale_locks` over the table of requests:
returns the updated table and the released names. -/
def release_stale_locks (threshold : Nat) (db : List PickRequest) :
    List PickRequest × List String :=
  (db.map (fun r => if isStale threshold r then releaseStaleOne r else r),
   (db.filter (fun r => isStale threshold r)).map (fun r => r.name))

/-- Handler `PickerWebSocketHandler._handle_valid_scan` (also the target of
`handle_manual_scan`): in scan-to-count mode (`requested_qty ≤
auto_mode_threshold`) an item below its requested quantity is incremented by
one; otherwise the state is unchanged.  The handler's UPC lookup dictionary
maps each upc to a single item; UPCs are unique within a request. -/
def handle_valid_scan (auto_mode_threshold : Int) (now : Nat) (upc : String)
    (r : PickRequest) : PickRequest :=
  match r.items.find? (fun i => i.upc = upc) with
  | none => r
  | some item =>
    if item.requested_qty ≤ auto_mode_threshold ∧
        item.picked_qty < item.requested_qty then
      { r with
        items := setFirstItem upc
          (fun i => { i with picked_qty := i.picked_qty + 1 }) r.items
        last_activity_at := some now }
    else r

/-- Handler `PickerWebSocketHandler.handle_manual_update`: the update is
applied only when the upc names an item and the quantity is present and
within `0 ≤ quantity ≤ requested_qty`; otherwise an error is sent and the
state is unchanged. -/
def handle_manual_update (now : Nat) (upc : Option String)
    (quantity : Option Int) (r : PickRequest) : PickRequest :=
  match upc with
  | none => r
  | some upc =>
    match r.items.find? (fun i => i.upc = upc) with
    | none => r
    | some item =>
      match quantity with
      | none => r
      | some q =>
        if q < 0 ∨ q > item.requested_qty then r
        else
          { r with
            items := setFirstItem upc (fun i => { i with picked_qty := q }) r.items
            last_activity_at := some now }

/-- Python `str.isspace` characters relevant to `str.strip()` (ASCII range;
the validator's claims concern ASCII input and the pattern check excludes
every whitespace character regardless). -/
def pyIsSpace (c : Char) : Bool :=
  c = ' ' || c = '\t' || c = '\n' || c = '\r' || c = '\x0b' || c = '\x0c'

/-- Python `str.strip()`: drop leading and trailing whitespace. -/
def pyStrip (s : String) : String :=
  ⟨((s.data.dropWhile pyIsSpace).reverse.dropWhile pyIsSpace).reverse⟩

/-- Character class `[a-zA-Z0-9_-]` of `RequestNameValidator.PATTERN`. -/
def isNameChar (c : Char) : Bool :=
  c.isAlpha || c.isDigit || c = '_' || c = '-'

/-- Match against `^[a-zA-Z][a-zA-Z0-9_-]{2,49}$` (full-match semantics of
`re.match` with both anchors on an already-stripped string). -/
def matchesPattern (s : String) : Bool :=
  match s.data with
  | [] => false
  | c :: rest =>
    c.isAlpha && rest.all isNameChar &&
      decide (2 ≤ rest.length) && decide (rest.length ≤ 49)

/-- Python `str.lower()` character by character (`String.toLower` agrees
but recurses on byte positions, which blocks kernel evaluation). -/
def pyLower (s : String) : String :=
  ⟨s.data.map Char.toLower⟩

/-- Result triple of `RequestNameValidator.validate`. -/
structure NameValidationResult where
  is_valid : Bool
  normalized : Option String
  error : Option String
deriving DecidableEq, Repr

/-- First-character test `name[0].isalpha()`.  Python's `isalpha` also
accepts non-ASCII letters; for such names the source fails the subsequent
PATTERN check instead, so acceptance and normalization are unaffected by
restricting to ASCII letters here. -/
def headIsAlpha (s : String) : Bool :=
  match s.data with
  | [] => false
  | c :: _ => c.isAlpha

/-- Method `RequestNameValidator.validate` from `app/utils/validators.py`.
The empty-string test is on the raw input (`if not name`); every later check
runs on the stripped name.  `pyLower` agrees with Python `str.lower`
on every name the validator accepts (ASCII letters, digits, `_`, `-`). -/
def RequestNameValidator_validate (name : String) : NameValidationResult :=
  if name = "" then
    ⟨false, none, some "Name is required"⟩
  else
    let stripped := pyStrip name
    if stripped.data.contains ' ' then
      ⟨false, none, some "Name cannot contain spaces"⟩
    else if stripped.length < 3 then
      ⟨false, none, some "Name must be at least 3 characters"⟩
    else if stripped.length > 50 then
      ⟨false, none, some "Name must be at most 50 characters"⟩
    else if ! headIsAlpha stripped then
      ⟨false, none, some "Name must start with a letter"⟩
    else if ! matchesPattern stripped then
      ⟨false, none,
        some "Name can only contain letters, numbers, underscores, and hyphens"⟩
    else
      ⟨true, some (pyLower stripped), none⟩

/-- One coordinator or transport operation on a single request, with every
argument the corresponding source function reads. -/
inductive Op
  | start_op (now : Nat) (u : User)
  | pause_op (now : Nat) (u : User)
  | resume_op (now : Nat) (u : User)
  | release_op (now : Nat) (u : User)
  | cancel_op (now : Nat) (u : User)
  | approve_op (now : Nat) (u : User) (notes : Option String)
  | submit_op (now : Nat) (u : User) (validate_shortages : Bool)
  | update_item_op (now : Nat) (u : User) (upc : String) (update : ItemQuantityUpdate)
  | set_shortage_op (now : Nat) (u : User) (upc : String) (update : ItemShortageUpdate)
  | submit_shortages_op (now : Nat) (u : User) (data : List ShortageData)
  | stale_release_op (threshold : Nat)
  | ws_scan_op (now : Nat) (auto_mode_threshold : Int) (upc : String)
  | ws_manual_op (now : Nat) (upc : Option String) (quantity : Option Int)
deriving Repr

/-- Post-state of a fallible operation: an exception rolls the transaction
back, leaving the request unchanged. -/
def applyExcept (res : Except AppError PickRequest) (r : PickRequest) :
    PickRequest :=
  match res with
  | .ok r2 => r2
  | .error _ => r

/-- Post-state of one operation on one request. -/
def applyOp (op : Op) (r : PickRequest) : PickRequest :=
  match op with
  | .start_op now u => applyExcept (start_picking now u r) r
  | .pause_op now u => applyExcept (pause_picking now u r) r
  | .resume_op now u => applyExcept (resume_picking now u r) r
  | .release_op now u => applyExcept (release_lock now u r) r
  | .cancel_op now u => applyExcept (cancel_request now u r) r
  | .approve_op now u notes => applyExcept (approve_request now u notes r) r
  | .submit_op now u v => applyExcept (submit_request now u v r) r
  | .update_item_op now u upc upd =>
      applyExcept (update_item_quantity now upc upd u r) r
  | .set_shortage_op now u upc upd =>
      applyExcept (set_item_shortage now upc upd u r) r
  | .submit_shortages_op now u data =>
      applyExcept (submit_with_shortages now u data r) r
  | .stale_release_op threshold =>
      if isStale threshold r then releaseStaleOne r else r
  | .ws_scan_op now t upc => handle_valid_scan t now upc r
  | .ws_manual_op now upc q => handle_manual_update now upc q r

/-- Post-state of a sequence of operations. -/
def applyOps (ops : List Op) (r : PickRequest) : PickRequest :=
  ops.foldl (fun r op => applyOp op r) r

/-- A freshly created request, as built by `PickRequestService.create_request`
from a validated `PickRequestCreate` payload: pending, unclaimed, no
timestamps beyond creation, every item untouched with a requested quantity
in the schema range `1..9999`. -/
def InitialRequest (r : PickRequest) : Prop :=
  r.status = .pending ∧ r.locked_by = none ∧ r.started_at = none ∧
  r.completed_at = none ∧
  ∀ i ∈ r.items, i.picked_qty = 0 ∧ 1 ≤ i.requested_qty ∧
    i.requested_qty ≤ 9999 ∧ i.shortage_reason = none ∧ i.shortage_notes = none

/-- The claim's lock/status invariant: a claimant exactly in the three
working states. -/
def ClaimIffActive (r : PickRequest) : Prop :=
  r.locked_by.isSome = true ↔
    (r.status = .in_progress ∨ r.status = .paused ∨
     r.status = .partially_completed)

/-- The invariant the code actually maintains: `submit` and `approve` keep
the claimant, so `completed` also carries one. -/
def ClaimIffPostStart (r : PickRequest) : Prop :=
  r.locked_by.isSome = true ↔
    (r.status = .in_progress ∨ r.status = .paused ∨
     r.status = .partially_completed ∨ r.status = .completed)

/-- Quantity bounds of every item of a request. -/
def QtyBounds (r : PickRequest) : Prop :=
  ∀ i ∈ r.items, 0 ≤ i.picked_qty ∧ i.picked_qty ≤ i.requested_qty

/-- Success of `_verify_lock` forces the `in_progress` status. -/
theorem verify_lock_ok {r : PickRequest} {u : User} {x : Unit}
    (h : verify_lock r u = .ok x) : r.status = .in_progress := by
  unfold verify_lock at h
  split at h
  · cases h
  · by_contra hc
    simp_all

/-- Success of `_verify_lock` by a non-admin forces lock ownership. -/
theorem verify_lock_ok_locked {r : PickRequest} {u : User} {x : Unit}
    (h : verify_lock r u = .ok x) (hadm : u.is_admin = false) :
    r.locked_by = some u.id := by
  unfold verify_lock at h
  split at h
  · cases h
  · split at h
    · cases h
    · rename_i hcond
      rw [not_and_or] at hcond
      rcases hcond with hc | hc
      · rw [not_not] at hc
        simpa [PickRequest.is_locked_by] using hc
      · simp [hadm] at hc

/-- Elements of `setFirstItem upc f items` are either original items or the
image under `f` of the item that `find?` locates. -/
theorem mem_setFirstItem {upc : String} {f : PickRequestItem → PickRequestItem}
    {items : List PickRequestItem} {j : PickRequestItem}
    (hj : j ∈ setFirstItem upc f items) :
    j ∈ items ∨
      ∃ i, items.find? (fun i => i.upc = upc) = some i ∧ j = f i := by
  induction items with
  | nil => simp [setFirstItem] at hj
  | cons a rest ih =>
    by_cases h : a.upc = upc
    · rw [setFirstItem, if_pos h] at hj
      rcases List.mem_cons.mp hj with hja | hjr
      · exact Or.inr ⟨a, List.find?_cons_of_pos _ (by simp [h]), hja⟩
      · exact Or.inl (List.mem_cons_of_mem _ hjr)
    · rw [setFirstItem, if_neg h] at hj
      rcases List.mem_cons.mp hj with hja | hjr
      · exact Or.inl (hja ▸ List.mem_cons_self a rest)
      · rcases ih hjr with hmem | ⟨i, hfind, hji⟩
        · exact Or.inl (List.mem_cons_of_mem _ hmem)
        · exact Or.inr ⟨i, by rwa [List.find?_cons_of_neg _ (by simp [h])], hji⟩

/-- Pointwise preservation through `setFirstItem`. -/
theorem setFirstItem_pres {P : PickRequestItem → Prop} {upc : String}
    {f : PickRequestItem → PickRequestItem} {items : List PickRequestItem}
    (hall : ∀ i ∈ items, P i) (hf : ∀ i ∈ items, P (f i)) :
    ∀ j ∈ setFirstItem upc f items, P j := by
  intro j hj
  rcases mem_setFirstItem hj with hmem | ⟨i, hfind, hji⟩
  · exact hall j hmem
  · exact hji ▸ hf i (List.mem_of_find?_eq_some hfind)

/-- Lookup after `setFirstItem` when `f` keeps the upc. -/
theorem find?_setFirstItem {upc : String} {f : PickRequestItem → PickRequestItem}
    {items : List PickRequestItem} {i : PickRequestItem}
    (hfind : items.find? (fun i => i.upc = upc) = some i)
    (hupc : (f i).upc = i.upc) :
    (setFirstItem upc f items).find? (fun i => i.upc = upc) = some (f i) := by
  induction items with
  | nil => simp at hfind
  | cons a rest ih =>
    by_cases h : a.upc = upc
    · rw [List.find?_cons_of_pos _ (by simp [h])] at hfind
      cases hfind
      rw [setFirstItem, if_pos h]
      exact List.find?_cons_of_pos _ (by simp [hupc, h])
    · rw [List.find?_cons_of_neg _ (by simp [h])] at hfind
      rw [setFirstItem, if_neg h]
      rw [List.find?_cons_of_neg _ (by simp [h])]
      exact ih hfind

/-- Successful `start_picking`: source state and full post-state. -/
theorem start_picking_ok {now : Nat} {u : User} {r r2 : PickRequest}
    (h : start_picking now u r = .ok r2) :
    r.status = .pending ∧ r.locked_by = none ∧
    r2 = { r with
      status := .in_progress
      locked_by := some u.id
      started_at := some now
      last_activity_at := some now } := by
  unfold start_picking at h
  split at h
  · cases h
  · split at h
    · cases h
    · rename_i h1 h2
      refine ⟨not_not.mp h1, ?_, by cases h; rfl⟩
      simpa [PickRequest.is_locked, Option.isSome_iff_ne_none] using h2

/-- Successful `pause_picking`: source state and full post-state. -/
theorem pause_picking_ok {now : Nat} {u : User} {r r2 : PickRequest}
    (h : pause_picking now u r = .ok r2) :
    r.status = .in_progress ∧
    r2 = { r with status := .paused, last_activity_at := some now } := by
  unfold pause_picking at h
  split at h
  · cases h
  · rename_i x heq
    exact ⟨verify_lock_ok heq, by cases h; rfl⟩

/-- Successful `resume_picking`: source state and full post-state. -/
theorem resume_picking_ok {now : Nat} {u : User} {r r2 : PickRequest}
    (h : resume_picking now u r = .ok r2) :
    (r.status = .paused ∨ r.status = .partially_completed) ∧
    r2 = { r with
      status := .in_progress
      locked_by := some u.id
      last_activity_at := some now } := by
  unfold resume_picking at h
  split at h
  · cases h
  · split at h
    · cases h
    · rename_i h1 h2
      rw [not_and_or, not_not, not_not] at h1
      exact ⟨h1, by cases h; rfl⟩

/-- Successful `release_lock`: source state and full post-state
(`started_at` preserved). -/
theorem release_lock_ok {now : Nat} {u : User} {r r2 : PickRequest}
    (h : release_lock now u r = .ok r2) :
    (r.status = .in_progress ∨ r.status = .paused ∨
      r.status = .partially_completed) ∧
    r2 = { r with
      status := .pending
      locked_by := none
      last_activity_at := some now } := by
  unfold release_lock at h
  split at h
  · cases h
  · split at h
    · cases h
    · rename_i h1 h2
      refine ⟨?_, by cases h; rfl⟩
      tauto

/-- Successful `cancel_request`: source state and full post-state. -/
theorem cancel_request_ok {now : Nat} {u : User} {r r2 : PickRequest}
    (h : cancel_request now u r = .ok r2) :
    r.status ≠ .completed ∧ r.status ≠ .cancelled ∧
    r2 = { r with
      status := .cancelled
      locked_by := none
      last_activity_at := some now } := by
  unfold cancel_request at h
  split at h
  · cases h
  · split at h
    · cases h
    · rename_i h1 h2
      rw [not_or] at h2
      exact ⟨h2.1, h2.2, by cases h; rfl⟩

/-- Successful `submit_request`: source state and full post-state
(`locked_by` survives in both final states). -/
theorem submit_request_ok {now : Nat} {u : User} {v : Bool} {r r2 : PickRequest}
    (h : submit_request now u v r = .ok r2) :
    r.status = .in_progress ∧
    r2 = { r with
      status := if r.has_shortages then .partially_completed else .completed
      completed_at := some now
      last_activity_at := some now } := by
  unfold submit_request at h
  split at h
  · cases h
  · rename_i x heq
    split at h
    · cases h
    · exact ⟨verify_lock_ok heq, by cases h; rfl⟩

/-- Successful `approve_request`: source state and post-state fields
(`locked_by` survives, `completed_at` is reassigned to the approval time). -/
theorem approve_request_ok {now : Nat} {u : User} {notes : Option String}
    {r r2 : PickRequest} (h : approve_request now u notes r = .ok r2) :
    r.status = .partially_completed ∧
    r2.status = .completed ∧ r2.locked_by = r.locked_by ∧
    r2.started_at = r.started_at ∧ r2.completed_at = some now ∧
    r2.last_activity_at = some now ∧ r2.items = r.items ∧
    r2.name = r.name ∧ r2.created_by = r.created_by := by
  unfold approve_request at h
  split at h
  · cases h
  · split at h
    · cases h
    · rename_i h1 h2
      refine ⟨not_not.mp h2, ?_⟩
      cases h
      cases notes with
      | none => simp
      | some s =>
        by_cases hs : s = "" <;> simp [hs]

/-- Successful `update_item_quantity`: frame of the request-level fields. -/
theorem update_item_quantity_ok_frame {now : Nat} {upc : String}
    {upd : ItemQuantityUpdate} {u : User} {r r2 : PickRequest}
    (h : update_item_quantity now upc upd u r = .ok r2) :
    r.status = .in_progress ∧ r2.status = r.status ∧
    r2.locked_by = r.locked_by ∧ r2.started_at = r.started_at ∧
    r2.completed_at = r.completed_at ∧ r2.last_activity_at = some now ∧
    r2.name = r.name ∧ r2.created_by = r.created_by ∧ r2.notes = r.notes := by
  unfold update_item_quantity at h
  split at h
  · cases h
  · rename_i x heq
    split at h
    · cases h
    · rename_i item hfind
      refine ⟨verify_lock_ok heq, ?_⟩
      cases upd <;> simp only at h <;> split at h
      · cases h
      · cases h; simp
      · cases h
      · cases h; simp

/-- Successful `set_item_shortage`: frame of the request-level fields. -/
theorem set_item_shortage_ok_frame {now : Nat} {upc : String}
    {upd : ItemShortageUpdate} {u : User} {r r2 : PickRequest}
    (h : set_item_shortage now upc upd u r = .ok r2) :
    r.status = .in_progress ∧ r2.status = r.status ∧
    r2.locked_by = r.locked_by ∧ r2.started_at = r.started_at ∧
    r2.completed_at = r.completed_at ∧ r2.last_activity_at = some now ∧
    r2.name = r.name ∧ r2.created_by = r.created_by ∧ r2.notes = r.notes := by
  unfold set_item_shortage at h
  split at h
  · cases h
  · rename_i x heq
    split at h
    · cases h
    · exact ⟨verify_lock_ok heq, by cases h; simp, by cases h; simp,
        by cases h; simp, by cases h; simp, by cases h; simp,
        by cases h; simp, by cases h; simp, by cases h; simp⟩

/-- Shortage-annotation writes preserve any item predicate that ignores the
shortage fields. -/
theorem applyShortageData_pres {P : PickRequestItem → Prop}
    (hP : ∀ i x y, P i → P { i with shortage_reason := x, shortage_notes := y })
    {sd : ShortageData} {items : List PickRequestItem}
    (hall : ∀ i ∈ items, P i) :
    ∀ j ∈ applyShortageData sd items, P j := by
  unfold applyShortageData
  split
  · split
    · exact setFirstItem_pres hall (fun i hi => hP i _ _ (hall i hi))
    · exact hall
  · exact hall

/-- Folded form of `applyShortageData_pres` over a whole shortage list. -/
theorem foldl_applyShortageData_pres {P : PickRequestItem → Prop}
    (hP : ∀ i x y, P i → P { i with shortage_reason := x, shortage_notes := y })
    (data : List ShortageData) :
    ∀ items : List PickRequestItem, (∀ i ∈ items, P i) →
      ∀ j ∈ data.foldl (fun its sd => applyShortageData sd its) items, P j := by
  induction data with
  | nil => intro items hall; simpa using hall
  | cons sd rest ih =>
    intro items hall
    exact ih _ (applyShortageData_pres hP hall)

/-- Successful `submit_with_shortages`: request-level effects plus item
preservation up to shortage annotations. -/
theorem submit_with_shortages_ok {now : Nat} {u : User}
    {data : List ShortageData} {r r2 : PickRequest}
    (h : submit_with_shortages now u data r = .ok r2) :
    r.status = .in_progress ∧ r2.locked_by = r.locked_by ∧
    r2.started_at = r.started_at ∧ r2.completed_at = some now ∧
    (r2.status = .partially_completed ∨ r2.status = .completed) ∧
    r2.name = r.name ∧ r2.created_by = r.created_by ∧
    (∀ P : PickRequestItem → Prop,
      (∀ i x y, P i → P { i with shortage_reason := x, shortage_notes := y }) →
      (∀ i ∈ r.items, P i) → ∀ j ∈ r2.items, P j) := by
  unfold submit_with_shortages at h
  split at h
  · cases h
  · rename_i x heq
    simp only at h
    obtain ⟨hs, hr2⟩ := submit_request_ok h
    subst hr2
    refine ⟨verify_lock_ok heq, by simp, by simp, by simp, ?_, by simp, by simp, ?_⟩
    · by_cases hsh :
        (PickRequest.has_shortages { r with
          items := data.foldl (fun its sd => applyShortageData sd its) r.items
          last_activity_at := some now }) <;> simp [hsh]
    · intro P hP hall
      simpa using foldl_applyShortageData_pres hP data r.items hall

/-- Request-level frame of the scan auto-increment handler. -/
theorem handle_valid_scan_frame (t : Int) (now : Nat) (upc : String)
    (r : PickRequest) :
    (handle_valid_scan t now upc r).status = r.status ∧
    (handle_valid_scan t now upc r).locked_by = r.locked_by ∧
    (handle_valid_scan t now upc r).started_at = r.started_at ∧
    (handle_valid_scan t now upc r).completed_at = r.completed_at ∧
    (handle_valid_scan t now upc r).name = r.name ∧
    (handle_valid_scan t now upc r).created_by = r.created_by ∧
    (handle_valid_scan t now upc r).notes = r.notes := by
  unfold handle_valid_scan
  split
  · simp
  · split <;> simp

/-- Request-level frame of the manual-update handler. -/
theorem handle_manual_update_frame (now : Nat) (upc : Option String)
    (q : Option Int) (r : PickRequest) :
    (handle_manual_update now upc q r).status = r.status ∧
    (handle_manual_update now upc q r).locked_by = r.locked_by ∧
    (handle_manual_update now upc q r).started_at = r.started_at ∧
    (handle_manual_update now upc q r).completed_at = r.completed_at ∧
    (handle_manual_update now upc q r).name = r.name ∧
    (handle_manual_update now upc q r).created_by = r.created_by ∧
    (handle_manual_update now upc q r).notes = r.notes := by
  unfold handle_manual_update
  split
  · simp
  · split
    · simp
    · split
      · simp
      · split <;> simp

/-- The post-start lock invariant depends only on `status` and `locked_by`. -/
theorem claimInv_congr {r r2 : PickRequest} (hs : r2.status = r.status)
    (hl : r2.locked_by = r.locked_by) (h : ClaimIffPostStart r) :
    ClaimIffPostStart r2 := by
  rw [ClaimIffPostStart, hs, hl]
  exact h

/-- Every single operation preserves the post-start lock invariant. -/
theorem claimInv_applyOp (op : Op) (r : PickRequest)
    (h : ClaimIffPostStart r) : ClaimIffPostStart (applyOp op r) := by
  cases op with
  | start_op now u =>
    cases hres : start_picking now u r with
    | error e => simpa [applyOp, applyExcept, hres] using h
    | ok r2 =>
      obtain ⟨hp, hl, hr2⟩ := start_picking_ok hres
      subst hr2
      simp [applyOp, applyExcept, hres, ClaimIffPostStart]
  | pause_op now u =>
    cases hres : pause_picking now u r with
    | error e => simpa [applyOp, applyExcept, hres] using h
    | ok r2 =>
      obtain ⟨hs, hr2⟩ := pause_picking_ok hres
      subst hr2
      simp only [applyOp, applyExcept, hres]
      simp [ClaimIffPostStart]
      exact h.mpr (Or.inl hs)
  | resume_op now u =>
    cases hres : resume_picking now u r with
    | error e => simpa [applyOp, applyExcept, hres] using h
    | ok r2 =>
      obtain ⟨hs, hr2⟩ := resume_picking_ok hres
      subst hr2
      simp [applyOp, applyExcept, hres, ClaimIffPostStart]
  | release_op now u =>
    cases hres : release_lock now u r with
    | error e => simpa [applyOp, applyExcept, hres] using h
    | ok r2 =>
      obtain ⟨hs, hr2⟩ := release_lock_ok hres
      subst hr2
      simp [applyOp, applyExcept, hres, ClaimIffPostStart]
  | cancel_op now u =>
    cases hres : cancel_request now u r with
    | error e => simpa [applyOp, applyExcept, hres] using h
    | ok r2 =>
      obtain ⟨hs1, hs2, hr2⟩ := cancel_request_ok hres
      subst hr2
      simp [applyOp, applyExcept, hres, ClaimIffPostStart]
  | approve_op now u notes =>
    cases hres : approve_request now u notes r with
    | error e => simpa [applyOp, applyExcept, hres] using h
    | ok r2 =>
      obtain ⟨hpc, hst, hl, _⟩ := approve_request_ok hres
      simp only [applyOp, applyExcept, hres]
      rw [ClaimIffPostStart, hst, hl]
      simp
      exact h.mpr (Or.inr (Or.inr (Or.inl hpc)))
  | submit_op now u v =>
    cases hres : submit_request now u v r with
    | error e => simpa [applyOp, applyExcept, hres] using h
    | ok r2 =>
      obtain ⟨hs, hr2⟩ := submit_request_ok hres
      subst hr2
      simp only [applyOp, applyExcept, hres]
      rw [ClaimIffPostStart]
      simp only [PickRequest.locked_by, PickRequest.status]
      by_cases hsh : r.has_shortages = true <;> simp [hsh] <;>
        exact h.mpr (Or.inl hs)
  | update_item_op now u upc upd =>
    cases hres : update_item_quantity now upc upd u r with
    | error e => simpa [applyOp, applyExcept, hres] using h
    | ok r2 =>
      obtain ⟨_, hst, hl, _⟩ := update_item_quantity_ok_frame hres
      simp only [applyOp, applyExcept, hres]
      exact claimInv_congr hst hl h
  | set_shortage_op now u upc upd =>
    cases hres : set_item_shortage now upc upd u r with
    | error e => simpa [applyOp, applyExcept, hres] using h
    | ok r2 =>
      obtain ⟨_, hst, hl, _⟩ := set_item_shortage_ok_frame hres
      simp only [applyOp, applyExcept, hres]
      exact claimInv_congr hst hl h
  | submit_shortages_op now u data =>
    cases hres : submit_with_shortages now u data r with
    | error e => simpa [applyOp, applyExcept, hres] using h
    | ok r2 =>
      obtain ⟨hs, hl, _, _, hst, _⟩ := submit_with_shortages_ok hres
      simp only [applyOp, applyExcept, hres]
      rw [ClaimIffPostStart, hl]
      rcases hst with hst | hst <;> rw [hst] <;> simp <;>
        exact h.mpr (Or.inl hs)
  | stale_release_op threshold =>
    by_cases hstale : isStale threshold r = true
    · simp [applyOp, hstale, releaseStaleOne, ClaimIffPostStart]
    · simpa [applyOp, hstale] using h
  | ws_scan_op now t upc =>
    obtain ⟨hst, hl, _⟩ := handle_valid_scan_frame t now upc r
    simp only [applyOp]
    exact claimInv_congr hst hl h
  | ws_manual_op now upc q =>
    obtain ⟨hst, hl, _⟩ := handle_manual_update_frame now upc q r
    simp only [applyOp]
    exact claimInv_congr hst hl h

/-- The post-start lock invariant holds along every operation sequence from
a freshly created request. -/
theorem claimInv_applyOps (ops : List Op) (r : PickRequest)
    (h : ClaimIffPostStart r) : ClaimIffPostStart (applyOps ops r) := by
  induction ops generalizing r with
  | nil => exact h
  | cons op rest ih => exact ih _ (claimInv_applyOp op r h)

instance (r : PickRequest) : Decidable (InitialRequest r) := by
  unfold InitialRequest; infer_instance

instance (r : PickRequest) : Decidable (ClaimIffActive r) := by
  unfold ClaimIffActive; infer_instance

instance (r : PickRequest) : Decidable (ClaimIffPostStart r) := by
  unfold ClaimIffPostStart; infer_instance

instance (r : PickRequest) : Decidable (QtyBounds r) := by
  unfold QtyBounds; infer_instance

/-- Requester from the spec scenarios. -/
def alice : User := ⟨"alice-id", "alice", false⟩

/-- Picker from the spec scenarios. -/
def bob : User := ⟨"bob-id", "bob", false⟩

/-- A third principal that is neither creator nor claimant nor admin. -/
def mallory : User := ⟨"mallory-id", "mallory", false⟩

/-- Scenario request `monday-restock` right after creation. -/
def demoRequest : PickRequest :=
  { name := "monday-restock"
    status := .pending
    created_by := "alice-id"
    locked_by := none
    notes := none
    started_at := none
    completed_at := none
    last_activity_at := none
    items := [⟨"29456086", "Big Mix", 3, 0, none, none⟩,
              ⟨"29377107", "Cookies", 2, 0, none, none⟩] }

/-- Trace driving `demoRequest` to a fully picked submission. -/
def fullPickTrace : List Op :=
  [.start_op 1 bob,
   .update_item_op 2 bob "29456086" (.absolute 3),
   .update_item_op 3 bob "29377107" (.absolute 2),
   .submit_op 5 bob true]

/-- The lock/status invariant as the specification states it
(`completed` excluded). -/
theorem claimIffActive_def (r : PickRequest) :
    ClaimIffActive r ↔
      (r.locked_by.isSome = true ↔
        (r.status = .in_progress ∨ r.status = .paused ∨
         r.status = .partially_completed)) := Iff.rfl

/-- C1 counterexample: along the fully-picked scenario trace the request
reaches `status = completed` with `claimant_id` still set to the submitter,
because `submit_request` never clears `locked_by`; the claimed iff is false
at this reachable state. -/
theorem C1_counterexample :
    InitialRequest demoRequest ∧
    (applyOps fullPickTrace demoRequest).status = .completed ∧
    (applyOps fullPickTrace demoRequest).locked_by = some "bob-id" ∧
    ¬ ClaimIffActive (applyOps fullPickTrace demoRequest) := by
  refine ⟨by decide, by decide, by decide, ?_⟩
  intro hiff
  have h1 : (applyOps fullPickTrace demoRequest).locked_by.isSome = true := by decide
  have h2 := hiff.mp h1
  revert h2
  decide

/-- C1 (amended): along every operation sequence from a freshly created
request, `claimant_id` is non-null iff the status is `in_progress`, `paused`,
`partially_completed` OR `completed`; `submit_request` and `approve_request`
leave `locked_by` unchanged (they do not clear it for `completed`). -/
theorem C1_claimant_invariant :
    (∀ (r0 : PickRequest) (ops : List Op), InitialRequest r0 →
      ClaimIffPostStart (applyOps ops r0)) ∧
    (∀ (now : Nat) (u : User) (v : Bool) (r r2 : PickRequest),
      submit_request now u v r = .ok r2 → r2.locked_by = r.locked_by) ∧
    (∀ (now : Nat) (u : User) (notes : Option String) (r r2 : PickRequest),
      approve_request now u notes r = .ok r2 → r2.locked_by = r.locked_by) := by
  refine ⟨?_, ?_, ?_⟩
  · intro r0 ops h
    apply claimInv_applyOps
    rw [ClaimIffPostStart, h.2.1, h.1]
    simp
  · intro now u v r r2 h
    obtain ⟨_, hr2⟩ := submit_request_ok h
    subst hr2
    rfl
  · intro now u notes r r2 h
    exact (approve_request_ok h).2.2.1

/-- C1 witness: the amended invariant evaluated along the concrete scenario
trace. -/
theorem C1_claimant_invariant_witness :
    ClaimIffPostStart (applyOps fullPickTrace demoRequest) :=
  C1_claimant_invariant.1 demoRequest fullPickTrace (by decide)

/-- The scenario request after one start-release cycle. -/
def releasedRequest : PickRequest :=
  applyOps [.start_op 1 bob, .release_op 2 bob] demoRequest

/-- C8 counterexample: after a start-release cycle `started_at = some 1`
survives, but a second `start` at time 7 overwrites it with `some 7` instead
of preserving it, because `start_picking` assigns `started_at`
unconditionally. -/
theorem C8_counterexample :
    releasedRequest.status = .pending ∧
    releasedRequest.locked_by = none ∧
    releasedRequest.started_at = some 1 ∧
    (applyOps [.start_op 7 bob] releasedRequest).started_at = some 7 := by
  decide

/-- C8 (amended): `start` on a pending, unclaimed request sets
`status := in_progress`, `claimant_id := principal` and unconditionally sets
`started_at := now`, overwriting any value surviving from an earlier
start-release cycle. -/
theorem C8_start_sets_started_at (now : Nat) (u : User) (r : PickRequest)
    (hp : r.status = .pending) (hl : r.locked_by = none) :
    start_picking now u r = .ok { r with
      status := .in_progress
      locked_by := some u.id
      started_at := some now
      last_activity_at := some now } := by
  unfold start_picking
  rw [if_neg (by simp [hp]), if_neg (by simp [PickRequest.is_locked, hl])]

/-- C8 witness: the amended start behaviour at the concrete post-release
state (`started_at` jumps from `some 1` to `some 7`). -/
theorem C8_start_sets_started_at_witness :
    start_picking 7 bob releasedRequest = .ok { releasedRequest with
      status := .in_progress
      locked_by := some bob.id
      started_at := some 7
      last_activity_at := some 7 } :=
  C8_start_sets_started_at 7 bob releasedRequest (by decide) (by decide)

/-- A claimed in-progress request with partial progress and an idle claim. -/
def staleRequest : PickRequest :=
  { name := "monday-restock"
    status := .in_progress
    created_by := "alice-id"
    locked_by := some "bob-id"
    notes := none
    started_at := some 10
    completed_at := none
    last_activity_at := some 20
    items := [⟨"29456086", "Big Mix", 3, 2, none, none⟩,
              ⟨"29377107", "Cookies", 2, 0, none, none⟩] }

/-- C2 counterexample: the reaper's stale release clears `started_at`
(and `last_activity_at`) instead of preserving them. -/
theorem C2_counterexample :
    isStale 100 staleRequest = true ∧
    (release_stale_locks 100 [staleRequest]).1 = [releaseStaleOne staleRequest] ∧
    staleRequest.started_at = some 10 ∧
    (releaseStaleOne staleRequest).started_at = none := by
  decide

/-- C2 (amended): for every stale `in_progress` request the reaper's release
returns the request to `pending` and clears `claimant_id`, leaving the items
(hence every `picked_qty`) unchanged, but it clears `started_at` and
`last_activity_at` rather than preserving `started_at`. -/
theorem C2_stale_release (threshold : Nat) (r : PickRequest)
    (h : isStale threshold r = true) :
    r.status = .in_progress ∧
    (releaseStaleOne r).status = .pending ∧
    (releaseStaleOne r).locked_by = none ∧
    (releaseStaleOne r).items = r.items ∧
    (releaseStaleOne r).completed_at = r.completed_at ∧
    (releaseStaleOne r).name = r.name ∧
    (releaseStaleOne r).notes = r.notes ∧
    (releaseStaleOne r).created_by = r.created_by ∧
    (releaseStaleOne r).started_at = none ∧
    (releaseStaleOne r).last_activity_at = none ∧
    ∀ db : List PickRequest, r ∈ db →
      releaseStaleOne r ∈ (release_stale_locks threshold db).1 := by
  refine ⟨?_, rfl, rfl, rfl, rfl, rfl, rfl, rfl, rfl, rfl, ?_⟩
  · unfold isStale at h
    simp only [Bool.and_eq_true, decide_eq_true_eq] at h
    exact h.1
  · intro db hdb
    unfold release_stale_locks
    exact List.mem_map.mpr ⟨r, hdb, by rw [if_pos h]⟩

/-- C2 witness: the amended stale-release behaviour on the concrete stale
request. -/
theorem C2_stale_release_witness :
    (releaseStaleOne staleRequest).locked_by = none ∧
    (releaseStaleOne staleRequest).items = staleRequest.items ∧
    releaseStaleOne staleRequest ∈ (release_stale_locks 100 [staleRequest]).1 := by
  have h := C2_stale_release 100 staleRequest (by decide)
  exact ⟨h.2.2.1, h.2.2.2.1, h.2.2.2.2.2.2.2.2.2.2 [staleRequest] (by decide)⟩

/-- Trace driving `demoRequest` to a partially completed submission at time
5 (one shortage with a recorded reason). -/
def shortageTrace : List Op :=
  [.start_op 1 bob,
   .update_item_op 2 bob "29456086" (.absolute 3),
   .set_shortage_op 3 bob "29377107" ⟨.out_of_stock, none⟩,
   .submit_op 5 bob true]

/-- C3 counterexample: `submit` at time 5 records `completed_at = some 5`,
but `approve` at time 9 overwrites it with `some 9` instead of keeping the
submit-time value. -/
theorem C3_counterexample :
    (applyOps shortageTrace demoRequest).status = .partially_completed ∧
    (applyOps shortageTrace demoRequest).completed_at = some 5 ∧
    (applyOps (shortageTrace ++ [.approve_op 9 alice (some "ok for now")])
        demoRequest).status = .completed ∧
    (applyOps (shortageTrace ++ [.approve_op 9 alice (some "ok for now")])
        demoRequest).completed_at = some 9 := by
  decide

/-- C3 (amended): `completed_at` is set to the submission time by `submit`,
and `approve` assigns it again to the approval time (it does not preserve
the value recorded at submit); every other operation leaves `completed_at`
unchanged. -/
theorem C3_completed_at :
    (∀ (now : Nat) (u : User) (v : Bool) (r r2 : PickRequest),
      submit_request now u v r = .ok r2 → r2.completed_at = some now) ∧
    (∀ (now : Nat) (u : User) (notes : Option String) (r r2 : PickRequest),
      approve_request now u notes r = .ok r2 → r2.completed_at = some now) ∧
    (∀ (now : Nat) (u : User) (r r2 : PickRequest),
      start_picking now u r = .ok r2 → r2.completed_at = r.completed_at) ∧
    (∀ (now : Nat) (u : User) (r r2 : PickRequest),
      pause_picking now u r = .ok r2 → r2.completed_at = r.completed_at) ∧
    (∀ (now : Nat) (u : User) (r r2 : PickRequest),
      resume_picking now u r = .ok r2 → r2.completed_at = r.completed_at) ∧
    (∀ (now : Nat) (u : User) (r r2 : PickRequest),
      release_lock now u r = .ok r2 → r2.completed_at = r.completed_at) ∧
    (∀ (now : Nat) (u : User) (r r2 : PickRequest),
      cancel_request now u r = .ok r2 → r2.completed_at = r.completed_at) ∧
    (∀ (now : Nat) (upc : String) (upd : ItemQuantityUpdate) (u : User)
        (r r2 : PickRequest),
      update_item_quantity now upc upd u r = .ok r2 →
        r2.completed_at = r.completed_at) ∧
    (∀ (now : Nat) (upc : String) (upd : ItemShortageUpdate) (u : User)
        (r r2 : PickRequest),
      set_item_shortage now upc upd u r = .ok r2 →
        r2.completed_at = r.completed_at) ∧
    (∀ r : PickRequest, (releaseStaleOne r).completed_at = r.completed_at) ∧
    (∀ (t : Int) (now : Nat) (upc : String) (r : PickRequest),
      (handle_valid_scan t now upc r).completed_at = r.completed_at) ∧
    (∀ (now : Nat) (upc : Option String) (q : Option Int) (r : PickRequest),
      (handle_manual_update now upc q r).completed_at = r.completed_at) := by
  refine ⟨?_, ?_, ?_, ?_, ?_, ?_, ?_, ?_, ?_, fun r => rfl, ?_, ?_⟩
  · intro now u v r r2 h
    obtain ⟨_, hr2⟩ := submit_request_ok h
    subst hr2; rfl
  · intro now u notes r r2 h
    exact (approve_request_ok h).2.2.2.2.1
  · intro now u r r2 h
    obtain ⟨_, _, hr2⟩ := start_picking_ok h
    subst hr2; rfl
  · intro now u r r2 h
    obtain ⟨_, hr2⟩ := pause_picking_ok h
    subst hr2; rfl
  · intro now u r r2 h
    obtain ⟨_, hr2⟩ := resume_picking_ok h
    subst hr2; rfl
  · intro now u r r2 h
    obtain ⟨_, hr2⟩ := release_lock_ok h
    subst hr2; rfl
  · intro now u r r2 h
    obtain ⟨_, _, hr2⟩ := cancel_request_ok h
    subst hr2; rfl
  · intro now upc upd u r r2 h
    exact (update_item_quantity_ok_frame h).2.2.2.2.1
  · intro now upc upd u r r2 h
    exact (set_item_shortage_ok_frame h).2.2.2.2.1
  · intro t now upc r
    exact (handle_valid_scan_frame t now upc r).2.2.2.1
  · intro now upc q r
    exact (handle_manual_update_frame now upc q r).2.2.2.1

/-- C3 witness: the submit conjunct evaluated on the concrete scenario
(submission at time 5 stamps `completed_at = some 5`). -/
theorem C3_completed_at_witness :
    (applyOps fullPickTrace demoRequest).completed_at = some 5 := by
  have hsub : submit_request 5 bob true
      (applyOps [.start_op 1 bob,
                 .update_item_op 2 bob "29456086" (.absolute 3),
                 .update_item_op 3 bob "29377107" (.absolute 2)] demoRequest) =
      .ok (applyOps fullPickTrace demoRequest) := by decide
  exact C3_completed_at.1 5 bob true _ _ hsub

/-- C5: inside an `in_progress` request held by the caller,
`update_item_quantity` fails with `QUANTITY_EXCEEDED` carrying
`remaining = requested_qty - picked_qty` (computed before the write) exactly
when the new quantity would exceed `requested_qty`, and otherwise writes the
new quantity; an increment reaching exactly `requested_qty` succeeds, and a
further increment fails with `remaining = 0`. -/
theorem C5_quantity_exceeded (now now2 : Nat) (u : User) (upc : String)
    (r : PickRequest) (item : PickRequestItem)
    (hs : r.status = .in_progress) (hl : r.locked_by = some u.id)
    (hf : r.items.find? (fun i => i.upc = upc) = some item)
    (h0 : 0 ≤ item.picked_qty) (h1 : item.picked_qty ≤ item.requested_qty) :
    (∀ n : Int, item.requested_qty < n →
      update_item_quantity now upc (.absolute n) u r =
        .error (.quantity_exceeded (item.requested_qty - item.picked_qty))) ∧
    (∀ n : Int, 0 ≤ n → n ≤ item.requested_qty →
      update_item_quantity now upc (.absolute n) u r =
        .ok { r with
          items := setFirstItem upc (fun i => { i with picked_qty := n }) r.items
          last_activity_at := some now }) ∧
    (∀ k : Int, 0 < k → item.requested_qty < item.picked_qty + k →
      update_item_quantity now upc (.increment k) u r =
        .error (.quantity_exceeded (item.requested_qty - item.picked_qty))) ∧
    (∀ k : Int, 0 < k → item.picked_qty + k ≤ item.requested_qty →
      update_item_quantity now upc (.increment k) u r =
        .ok { r with
          items := setFirstItem upc
            (fun i => { i with picked_qty := item.picked_qty + k }) r.items
          last_activity_at := some now }) ∧
    (∀ k k2 : Int, 0 < k → 0 < k2 → item.picked_qty + k = item.requested_qty →
      update_item_quantity now2 upc (.increment k2) u
        { r with
          items := setFirstItem upc
            (fun i => { i with picked_qty := item.picked_qty + k }) r.items
          last_activity_at := some now } =
        .error (.quantity_exceeded 0)) := by
  have hv : verify_lock r u = .ok () := by
    unfold verify_lock
    rw [if_neg (by simp [hs]), if_neg (by simp [PickRequest.is_locked_by, hl])]
  have hrem : item.remaining = item.requested_qty - item.picked_qty := by
    unfold PickRequestItem.remaining
    exact max_eq_right (by omega)
  refine ⟨?_, ?_, ?_, ?_, ?_⟩
  · intro n hgt
    simp only [update_item_quantity, hv, hf]
    rw [if_pos hgt, hrem]
  · intro n h0n hle
    simp only [update_item_quantity, hv, hf]
    rw [if_neg (by omega : ¬ item.requested_qty < n),
      if_neg (by omega : ¬ n < (0 : Int))]
  · intro k hk hgt
    simp only [update_item_quantity, hv, hf]
    rw [if_pos hgt, hrem]
  · intro k hk hle
    simp only [update_item_quantity, hv, hf]
    rw [if_neg (by omega : ¬ item.requested_qty < item.picked_qty + k),
      if_neg (by omega : ¬ item.picked_qty + k < (0 : Int))]
  · intro k k2 hk hk2 heq
    have hv2 : verify_lock
        { r with
          items := setFirstItem upc
            (fun i => { i with picked_qty := item.picked_qty + k }) r.items
          last_activity_at := some now } u = .ok () := by
      unfold verify_lock
      rw [if_neg (by simp [hs]), if_neg (by simp [PickRequest.is_locked_by, hl])]
    have hf2 :
        (setFirstItem upc
          (fun i => { i with picked_qty := item.picked_qty + k })
          r.items).find? (fun i => i.upc = upc) =
          some { item with picked_qty := item.picked_qty + k } :=
      find?_setFirstItem hf rfl
    have hrem2 : ({ item with picked_qty := item.picked_qty + k } :
        PickRequestItem).remaining = 0 := by
      unfold PickRequestItem.remaining
      simp only
      rw [heq]
      simp
    simp only [update_item_quantity, hv2, hf2]
    rw [if_pos (by simp only; omega :
        ({ item with picked_qty := item.picked_qty + k } :
          PickRequestItem).requested_qty <
        ({ item with picked_qty := item.picked_qty + k } :
          PickRequestItem).picked_qty + k2), hrem2]

/-- The quantity-bound scenario: one item `Widget` with `requested_qty = 5`,
claimed by `bob` and in progress. -/
def widgetRequest : PickRequest :=
  { name := "widget-req"
    status := .in_progress
    created_by := "alice-id"
    locked_by := some "bob-id"
    notes := none
    started_at := some 1
    completed_at := none
    last_activity_at := some 1
    items := [⟨"100", "Widget", 5, 0, none, none⟩] }

/-- C5 witness: `increment 6` on the fresh widget item fails with
`remaining = 5`; `absolute 5` succeeds; a further `increment 1` fails with
`remaining = 0`. -/
theorem C5_quantity_exceeded_witness :
    update_item_quantity 2 "100" (.increment 6) bob widgetRequest =
      .error (.quantity_exceeded 5) ∧
    update_item_quantity 3 "100" (.absolute 5) bob widgetRequest =
      .ok { widgetRequest with
        items := [⟨"100", "Widget", 5, 5, none, none⟩]
        last_activity_at := some 3 } ∧
    update_item_quantity 4 "100" (.increment 1) bob
      { widgetRequest with
        items := [⟨"100", "Widget", 5, 5, none, none⟩]
        last_activity_at := some 3 } =
      .error (.quantity_exceeded 0) := by
  have hA := C5_quantity_exceeded 2 4 bob "100" widgetRequest
    ⟨"100", "Widget", 5, 0, none, none⟩ (by decide) (by decide) (by decide)
    (by decide) (by decide)
  have hB := C5_quantity_exceeded 3 4 bob "100" widgetRequest
    ⟨"100", "Widget", 5, 0, none, none⟩ (by decide) (by decide) (by decide)
    (by decide) (by decide)
  have hC := C5_quantity_exceeded 4 9 bob "100"
    { widgetRequest with
      items := [⟨"100", "Widget", 5, 5, none, none⟩]
      last_activity_at := some 3 }
    ⟨"100", "Widget", 5, 5, none, none⟩ (by decide) (by decide) (by decide)
    (by decide) (by decide)
  refine ⟨?_, ?_, ?_⟩
  · simpa using hA.2.2.1 6 (by decide) (by decide)
  · have h2 := hB.2.1 5 (by decide) (by decide)
    rw [h2]
    decide
  · simpa using hC.2.2.1 1 (by decide) (by decide)

/-- Every single operation preserves the per-item quantity bounds. -/
theorem qtyBounds_applyOp (op : Op) (r : PickRequest) (h : QtyBounds r) :
    QtyBounds (applyOp op r) := by
  cases op with
  | start_op now u =>
    cases hres : start_picking now u r with
    | error e => simpa [applyOp, applyExcept, hres] using h
    | ok r2 =>
      obtain ⟨_, _, hr2⟩ := start_picking_ok hres
      subst hr2
      simpa [applyOp, applyExcept, hres, QtyBounds] using h
  | pause_op now u =>
    cases hres : pause_picking now u r with
    | error e => simpa [applyOp, applyExcept, hres] using h
    | ok r2 =>
      obtain ⟨_, hr2⟩ := pause_picking_ok hres
      subst hr2
      simpa [applyOp, applyExcept, hres, QtyBounds] using h
  | resume_op now u =>
    cases hres : resume_picking now u r with
    | error e => simpa [applyOp, applyExcept, hres] using h
    | ok r2 =>
      obtain ⟨_, hr2⟩ := resume_picking_ok hres
      subst hr2
      simpa [applyOp, applyExcept, hres, QtyBounds] using h
  | release_op now u =>
    cases hres : release_lock now u r with
    | error e => simpa [applyOp, applyExcept, hres] using h
    | ok r2 =>
      obtain ⟨_, hr2⟩ := release_lock_ok hres
      subst hr2
      simpa [applyOp, applyExcept, hres, QtyBounds] using h
  | cancel_op now u =>
    cases hres : cancel_request now u r with
    | error e => simpa [applyOp, applyExcept, hres] using h
    | ok r2 =>
      obtain ⟨_, _, hr2⟩ := cancel_request_ok hres
      subst hr2
      simpa [applyOp, applyExcept, hres, QtyBounds] using h
  | approve_op now u notes =>
    cases hres : approve_request now u notes r with
    | error e => simpa [applyOp, applyExcept, hres] using h
    | ok r2 =>
      obtain ⟨_, _, _, _, _, _, hitems, _⟩ := approve_request_ok hres
      simp only [applyOp, applyExcept, hres]
      rw [QtyBounds, hitems]
      exact h
  | submit_op now u v =>
    cases hres : submit_request now u v r with
    | error e => simpa [applyOp, applyExcept, hres] using h
    | ok r2 =>
      obtain ⟨_, hr2⟩ := submit_request_ok hres
      subst hr2
      simpa [applyOp, applyExcept, hres, QtyBounds] using h
  | update_item_op now u upc upd =>
    cases hres : update_item_quantity now upc upd u r with
    | error e => simpa [applyOp, applyExcept, hres] using h
    | ok r2 =>
      simp only [applyOp, applyExcept, hres]
      unfold update_item_quantity at hres
      split at hres
      · cases hres
      · rename_i x heq
        split at hres
        · cases hres
        · rename_i item hfind
          have hitem := h item (List.mem_of_find?_eq_some hfind)
          cases upd with
          | absolute n =>
            simp only at hres
            split at hres
            · cases hres
            · rename_i hle
              cases hres
              intro j hj
              rcases mem_setFirstItem hj with hmem | ⟨i2, hfind2, hji⟩
              · exact h j hmem
              · rw [hfind] at hfind2
                injection hfind2 with hi2
                subst hi2
                subst hji
                refine ⟨?_, ?_⟩ <;> dsimp only <;> split_ifs <;> omega
          | increment k =>
            simp only at hres
            split at hres
            · cases hres
            · rename_i hle
              cases hres
              intro j hj
              rcases mem_setFirstItem hj with hmem | ⟨i2, hfind2, hji⟩
              · exact h j hmem
              · rw [hfind] at hfind2
                injection hfind2 with hi2
                subst hi2
                subst hji
                refine ⟨?_, ?_⟩ <;> dsimp only <;> split_ifs <;> omega
  | set_shortage_op now u upc upd =>
    cases hres : set_item_shortage now upc upd u r with
    | error e => simpa [applyOp, applyExcept, hres] using h
    | ok r2 =>
      simp only [applyOp, applyExcept, hres]
      unfold set_item_shortage at hres
      split at hres
      · cases hres
      · rename_i x heq
        split at hres
        · cases hres
        · rename_i item hfind
          cases hres
          intro j hj
          exact @setFirstItem_pres
            (fun i => 0 ≤ i.picked_qty ∧ i.picked_qty ≤ i.requested_qty)
            upc
            (fun i => { i with
              shortage_reason := some upd.shortage_reason
              shortage_notes := upd.shortage_notes })
            r.items h (fun i hi => h i hi) j hj
  | submit_shortages_op now u data =>
    cases hres : submit_with_shortages now u data r with
    | error e => simpa [applyOp, applyExcept, hres] using h
    | ok r2 =>
      simp only [applyOp, applyExcept, hres]
      intro j hj
      exact (submit_with_shortages_ok hres).2.2.2.2.2.2.2
        (fun i => 0 ≤ i.picked_qty ∧ i.picked_qty ≤ i.requested_qty)
        (fun i x y hi => hi) h j hj
  | stale_release_op threshold =>
    by_cases hstale : isStale threshold r = true
    · simp only [applyOp, if_pos hstale]
      rw [QtyBounds]
      simpa [releaseStaleOne] using h
    · simpa [applyOp, hstale] using h
  | ws_scan_op now t upc =>
    simp only [applyOp]
    unfold handle_valid_scan
    split
    · exact h
    · rename_i item hfind
      split
      · rename_i hguard
        intro j hj
        rcases mem_setFirstItem hj with hmem | ⟨i2, hfind2, hji⟩
        · exact h j hmem
        · rw [hfind] at hfind2
          injection hfind2 with hi2
          subst hi2
          subst hji
          have hitem := h item (List.mem_of_find?_eq_some hfind)
          refine ⟨?_, ?_⟩ <;> dsimp only <;> omega
      · exact h
  | ws_manual_op now upc q =>
    simp only [applyOp]
    unfold handle_manual_update
    split
    · exact h
    · split
      · exact h
      · rename_i item hfind
        split
        · exact h
        · rename_i qv
          split
          · exact h
          · rename_i hguard
            intro j hj
            rcases mem_setFirstItem hj with hmem | ⟨i2, hfind2, hji⟩
            · exact h j hmem
            · rw [hfind] at hfind2
              injection hfind2 with hi2
              subst hi2
              subst hji
              rw [not_or] at hguard
              refine ⟨?_, ?_⟩ <;> dsimp only <;> omega

/-- The quantity bounds hold along every operation sequence. -/
theorem qtyBounds_applyOps (ops : List Op) (r : PickRequest)
    (h : QtyBounds r) : QtyBounds (applyOps ops r) := by
  induction ops generalizing r with
  | nil => exact h
  | cons op rest ih => exact ih _ (qtyBounds_applyOp op r h)

/-- C6: along every operation sequence (service item updates, websocket scan
auto-increment, websocket manual update, and all lifecycle transitions) from
a freshly created request, every item satisfies
`0 ≤ picked_qty ≤ requested_qty`. -/
theorem C6_qty_bounds (r0 : PickRequest) (ops : List Op)
    (h : InitialRequest r0) : QtyBounds (applyOps ops r0) := by
  apply qtyBounds_applyOps
  intro i hi
  obtain ⟨hp, hq1, _⟩ := h.2.2.2.2 i hi
  constructor <;> omega

/-- C6 witness: the bounds evaluated along a concrete trace mixing service
updates with websocket scans and manual updates. -/
theorem C6_qty_bounds_witness :
    QtyBounds (applyOps
      [.start_op 1 bob,
       .ws_scan_op 2 10 "29456086",
       .ws_manual_op 3 (some "29377107") (some 2),
       .update_item_op 4 bob "29456086" (.increment 2)]
      demoRequest) :=
  C6_qty_bounds demoRequest _ (by decide)

/-- The scenario request after full picking and submission: `completed`,
with the claimant still recorded. -/
def completedRequest : PickRequest := applyOps fullPickTrace demoRequest

/-- Operations of the coordinator service (the claim's list); the reaper and
the websocket handlers are transport-side. -/
def isCoordinatorOp : Op → Bool
  | .stale_release_op _ => false
  | .ws_scan_op _ _ _ => false
  | .ws_manual_op _ _ _ => false
  | _ => true

/-- C7 counterexample: `cancel` of a completed request by a principal who is
neither the creator nor an admin fails with FORBIDDEN, not INVALID_STATUS,
because the ownership check precedes the status check. -/
theorem C7_counterexample :
    completedRequest.status = .completed ∧
    cancel_request 9 mallory completedRequest =
      .error (.forbidden "Only request creator or admin can cancel") ∧
    ∀ e, cancel_request 9 mallory completedRequest = .error e →
      ∀ cur exp, e ≠ .invalid_status cur exp := by
  have heval : cancel_request 9 mallory completedRequest =
      .error (.forbidden "Only request creator or admin can cancel") := by decide
  refine ⟨by decide, heval, ?_⟩
  intro e he cur exp hcontra
  rw [heval] at he
  injection he with he2
  rw [← he2] at hcontra
  cases hcontra

/-- C7 (amended): a request in a terminal state (`completed` or `cancelled`)
is never the source of any further transition: every coordinator operation
fails and leaves the request unchanged.  The failure is INVALID_STATUS for
`start`, `pause`, `resume`, `submit`, `update_item`, `set_shortage` (for any
caller), and for `release`, `cancel`, `approve`, `delete` whenever the caller
passes the claimant/creator/admin ownership check; a caller failing that
check gets FORBIDDEN instead. -/
theorem C7_terminal_states (r : PickRequest)
    (hterm : r.status = .completed ∨ r.status = .cancelled) :
    (∀ (now : Nat) (u : User), start_picking now u r =
      .error (.invalid_status (statusValue r.status) "pending")) ∧
    (∀ (now : Nat) (u : User), pause_picking now u r =
      .error (.invalid_status (statusValue r.status) "in_progress")) ∧
    (∀ (now : Nat) (upc : String) (upd : ItemQuantityUpdate) (u : User),
      update_item_quantity now upc upd u r =
        .error (.invalid_status (statusValue r.status) "in_progress")) ∧
    (∀ (now : Nat) (upc : String) (upd : ItemShortageUpdate) (u : User),
      set_item_shortage now upc upd u r =
        .error (.invalid_status (statusValue r.status) "in_progress")) ∧
    (∀ (now : Nat) (u : User) (v : Bool), submit_request now u v r =
      .error (.invalid_status (statusValue r.status) "in_progress")) ∧
    (∀ (now : Nat) (u : User) (data : List ShortageData),
      submit_with_shortages now u data r =
        .error (.invalid_status (statusValue r.status) "in_progress")) ∧
    (∀ (now : Nat) (u : User), resume_picking now u r =
      .error (.invalid_status (statusValue r.status)
        "paused or partially_completed")) ∧
    (∀ (now : Nat) (u : User), u.is_admin = true ∨ r.locked_by = some u.id →
      release_lock now u r = .error (.invalid_status (statusValue r.status)
        "in_progress, paused, or partially_completed")) ∧
    (∀ (now : Nat) (u : User), u.is_admin = false → r.locked_by ≠ some u.id →
      release_lock now u r =
        .error (.forbidden "Only lock holder or admin can release")) ∧
    (∀ (now : Nat) (u : User), u.is_admin = true ∨ r.created_by = u.id →
      cancel_request now u r = .error (.invalid_status (statusValue r.status)
        "pending, in_progress, paused, or partially_completed")) ∧
    (∀ (now : Nat) (u : User), u.is_admin = false → r.created_by ≠ u.id →
      cancel_request now u r =
        .error (.forbidden "Only request creator or admin can cancel")) ∧
    (∀ (now : Nat) (u : User) (notes : Option String),
      u.is_admin = true ∨ r.created_by = u.id →
      approve_request now u notes r =
        .error (.invalid_status (statusValue r.status) "partially_completed")) ∧
    (∀ (now : Nat) (u : User) (notes : Option String),
      u.is_admin = false → r.created_by ≠ u.id →
      approve_request now u notes r =
        .error (.forbidden "Only request creator or admin can approve")) ∧
    (∀ u : User, u.is_admin = true ∨ r.created_by = u.id →
      delete_request u r =
        .error (.invalid_status (statusValue r.status) "pending")) ∧
    (∀ u : User, u.is_admin = false → r.created_by ≠ u.id →
      delete_request u r = .error (.forbidden "Only owner or admin can delete")) ∧
    (∀ op : Op, isCoordinatorOp op = true → applyOp op r = r) := by
  have h1 : r.status ≠ .pending := by rcases hterm with h | h <;> simp [h]
  have h2 : r.status ≠ .in_progress := by rcases hterm with h | h <;> simp [h]
  have h3 : r.status ≠ .paused := by rcases hterm with h | h <;> simp [h]
  have h4 : r.status ≠ .partially_completed := by
    rcases hterm with h | h <;> simp [h]
  have hstart : ∀ (now : Nat) (u : User), start_picking now u r =
      .error (.invalid_status (statusValue r.status) "pending") := by
    intro now u
    unfold start_picking
    rw [if_pos h1]
  have hpause : ∀ (now : Nat) (u : User), pause_picking now u r =
      .error (.invalid_status (statusValue r.status) "in_progress") := by
    intro now u
    unfold pause_picking verify_lock
    rw [if_pos h2]
  have hupd : ∀ (now : Nat) (upc : String) (upd : ItemQuantityUpdate)
      (u : User), update_item_quantity now upc upd u r =
      .error (.invalid_status (statusValue r.status) "in_progress") := by
    intro now upc upd u
    unfold update_item_quantity verify_lock
    rw [if_pos h2]
  have hshort : ∀ (now : Nat) (upc : String) (upd : ItemShortageUpdate)
      (u : User), set_item_shortage now upc upd u r =
      .error (.invalid_status (statusValue r.status) "in_progress") := by
    intro now upc upd u
    unfold set_item_shortage verify_lock
    rw [if_pos h2]
  have hsub : ∀ (now : Nat) (u : User) (v : Bool), submit_request now u v r =
      .error (.invalid_status (statusValue r.status) "in_progress") := by
    intro now u v
    unfold submit_request verify_lock
    rw [if_pos h2]
  have hsws : ∀ (now : Nat) (u : User) (data : List ShortageData),
      submit_with_shortages now u data r =
      .error (.invalid_status (statusValue r.status) "in_progress") := by
    intro now u data
    unfold submit_with_shortages verify_lock
    rw [if_pos h2]
  have hres : ∀ (now : Nat) (u : User), resume_picking now u r =
      .error (.invalid_status (statusValue r.status)
        "paused or partially_completed") := by
    intro now u
    unfold resume_picking
    rw [if_pos ⟨h3, h4⟩]
  have hrel1 : ∀ (now : Nat) (u : User),
      u.is_admin = true ∨ r.locked_by = some u.id →
      release_lock now u r = .error (.invalid_status (statusValue r.status)
        "in_progress, paused, or partially_completed") := by
    intro now u hu
    unfold release_lock
    rw [if_neg (by rcases hu with hu | hu <;> simp [hu]), if_pos ⟨h2, h3, h4⟩]
  have hrel2 : ∀ (now : Nat) (u : User), u.is_admin = false →
      r.locked_by ≠ some u.id → release_lock now u r =
      .error (.forbidden "Only lock holder or admin can release") := by
    intro now u ha hl
    unfold release_lock
    rw [if_pos ⟨by simp [ha], hl⟩]
  have hcan1 : ∀ (now : Nat) (u : User),
      u.is_admin = true ∨ r.created_by = u.id →
      cancel_request now u r = .error (.invalid_status (statusValue r.status)
        "pending, in_progress, paused, or partially_completed") := by
    intro now u hu
    unfold cancel_request
    rw [if_neg (by rcases hu with hu | hu <;> simp [hu]), if_pos hterm]
  have hcan2 : ∀ (now : Nat) (u : User), u.is_admin = false →
      r.created_by ≠ u.id → cancel_request now u r =
      .error (.forbidden "Only request creator or admin can cancel") := by
    intro now u ha hc
    unfold cancel_request
    rw [if_pos ⟨by simp [ha], hc⟩]
  have happ1 : ∀ (now : Nat) (u : User) (notes : Option String),
      u.is_admin = true ∨ r.created_by = u.id →
      approve_request now u notes r =
        .error (.invalid_status (statusValue r.status) "partially_completed") := by
    intro now u notes hu
    unfold approve_request
    rw [if_neg (by rcases hu with hu | hu <;> simp [hu]), if_pos h4]
  have happ2 : ∀ (now : Nat) (u : User) (notes : Option String),
      u.is_admin = false → r.created_by ≠ u.id →
      approve_request now u notes r =
        .error (.forbidden "Only request creator or admin can approve") := by
    intro now u notes ha hc
    unfold approve_request
    rw [if_pos ⟨by simp [ha], hc⟩]
  have hdel1 : ∀ u : User, u.is_admin = true ∨ r.created_by = u.id →
      delete_request u r =
        .error (.invalid_status (statusValue r.status) "pending") := by
    intro u hu
    unfold delete_request
    rw [if_neg (by rcases hu with hu | hu <;> simp [hu]), if_pos h1]
  have hdel2 : ∀ u : User, u.is_admin = false → r.created_by ≠ u.id →
      delete_request u r =
        .error (.forbidden "Only owner or admin can delete") := by
    intro u ha hc
    unfold delete_request
    rw [if_pos ⟨by simp [ha], hc⟩]
  refine ⟨hstart, hpause, hupd, hshort, hsub, hsws, hres, hrel1, hrel2,
    hcan1, hcan2, happ1, happ2, hdel1, hdel2, ?_⟩
  intro op hop
  cases op with
  | start_op now u => simp [applyOp, applyExcept, hstart now u]
  | pause_op now u => simp [applyOp, applyExcept, hpause now u]
  | resume_op now u => simp [applyOp, applyExcept, hres now u]
  | release_op now u =>
    by_cases hu : u.is_admin = true ∨ r.locked_by = some u.id
    · simp [applyOp, applyExcept, hrel1 now u hu]
    · rw [not_or] at hu
      simp [applyOp, applyExcept,
        hrel2 now u (by simpa using hu.1) hu.2]
  | cancel_op now u =>
    by_cases hu : u.is_admin = true ∨ r.created_by = u.id
    · simp [applyOp, applyExcept, hcan1 now u hu]
    · rw [not_or] at hu
      simp [applyOp, applyExcept,
        hcan2 now u (by simpa using hu.1) hu.2]
  | approve_op now u notes =>
    by_cases hu : u.is_admin = true ∨ r.created_by = u.id
    · simp [applyOp, applyExcept, happ1 now u notes hu]
    · rw [not_or] at hu
      simp [applyOp, applyExcept,
        happ2 now u notes (by simpa using hu.1) hu.2]
  | submit_op now u v => simp [applyOp, applyExcept, hsub now u v]
  | update_item_op now u upc upd => simp [applyOp, applyExcept, hupd now upc upd u]
  | set_shortage_op now u upc upd => simp [applyOp, applyExcept, hshort now upc upd u]
  | submit_shortages_op now u data => simp [applyOp, applyExcept, hsws now u data]
  | stale_release_op t => simp [isCoordinatorOp] at hop
  | ws_scan_op now t upc => simp [isCoordinatorOp] at hop
  | ws_manual_op now upc q => simp [isCoordinatorOp] at hop

/-- C7 witness: the amended behaviour evaluated on the concrete completed
request (`start` by anyone, and `cancel` by the creator, both INVALID_STATUS;
the state is unchanged). -/
theorem C7_terminal_states_witness :
    start_picking 9 bob completedRequest =
      .error (.invalid_status "completed" "pending") ∧
    cancel_request 9 alice completedRequest =
      .error (.invalid_status "completed"
        "pending, in_progress, paused, or partially_completed") ∧
    applyOp (.cancel_op 9 alice) completedRequest = completedRequest := by
  have h := C7_terminal_states completedRequest (by decide)
  refine ⟨?_, ?_, ?_⟩
  · have hs := h.1 9 bob
    rw [hs]
    decide
  · have hc := h.2.2.2.2.2.2.2.2.2.1 9 alice (by decide)
    rw [hc]
    decide
  · exact h.2.2.2.2.2.2.2.2.2.2.2.2.2.2.2 (.cancel_op 9 alice) (by decide)

/-- A claimed in-progress request with one shortage item (`Cookies` picked
1 of 2) that has no `shortage_reason`. -/
def missingReasonRequest : PickRequest :=
  { name := "monday-restock"
    status := .in_progress
    created_by := "alice-id"
    locked_by := some "bob-id"
    notes := none
    started_at := some 1
    completed_at := none
    last_activity_at := some 4
    items := [⟨"29456086", "Big Mix", 3, 3, none, none⟩,
              ⟨"29377107", "Cookies", 2, 1, none, none⟩] }

/-- The same request after the shortage item was annotated with
`reason = other` and empty notes (a state the pydantic schemas reject at the
transport but `submit_with_shortages` can write). -/
def otherNoNotesRequest : PickRequest :=
  { missingReasonRequest with
    items := [⟨"29456086", "Big Mix", 3, 3, none, none⟩,
              ⟨"29377107", "Cookies", 2, 1, some .other, none⟩] }

/-- C4: `submit_request` with shortage validation on an `in_progress` request
held by the caller raises the Python `AttributeError` from the undefined
`exceptions.validation_error` (not a validation error naming the item)
whenever some shortage item lacks a `shortage_reason`; and when every
shortage item has a reason it succeeds with `partially_completed` with no
check at all that a reason of `other` carries non-empty `shortage_notes`. -/
theorem C4_submit_validation_bug :
    (∀ (now : Nat) (u : User) (r : PickRequest),
      r.status = .in_progress → r.locked_by = some u.id →
      (r.items.find? (fun i =>
        i.has_shortage ∧ i.shortage_reason = none)).isSome = true →
      submit_request now u true r =
        .error (.attribute_error "validation_error")) ∧
    (∀ (now : Nat) (u : User) (r : PickRequest),
      r.status = .in_progress → r.locked_by = some u.id →
      r.has_shortages = true →
      r.items.find? (fun i =>
        i.has_shortage ∧ i.shortage_reason = none) = none →
      submit_request now u true r = .ok { r with
        status := .partially_completed
        completed_at := some now
        last_activity_at := some now }) := by
  constructor
  · intro now u r hs hl hfind
    have hv : verify_lock r u = .ok () := by
      unfold verify_lock
      rw [if_neg (by simp [hs]), if_neg (by simp [PickRequest.is_locked_by, hl])]
    have hshort : r.has_shortages = true := by
      obtain ⟨i, hi⟩ := Option.isSome_iff_exists.mp hfind
      have hp := List.find?_some hi
      have hm := List.mem_of_find?_eq_some hi
      simp only [decide_eq_true_eq] at hp
      unfold PickRequest.has_shortages
      rw [List.any_eq_true]
      exact ⟨i, hm, hp.1⟩
    simp only [submit_request, hv]
    rw [if_pos ⟨hshort, trivial, hfind⟩]
  · intro now u r hs hl hshort hnone
    have hv : verify_lock r u = .ok () := by
      unfold verify_lock
      rw [if_neg (by simp [hs]), if_neg (by simp [PickRequest.is_locked_by, hl])]
    simp only [submit_request, hv]
    rw [if_neg (by rw [hnone]; simp)]
    simp [hshort]

/-- C4 witness: the concrete missing-reason request crashes with the
`AttributeError` marker, and the concrete other-with-empty-notes request is
submitted to `partially_completed` without any rejection. -/
theorem C4_submit_validation_bug_witness :
    submit_request 5 bob true missingReasonRequest =
      .error (.attribute_error "validation_error") ∧
    submit_request 5 bob true otherNoNotesRequest = .ok
      { otherNoNotesRequest with
        status := .partially_completed
        completed_at := some 5
        last_activity_at := some 5 } :=
  ⟨C4_submit_validation_bug.1 5 bob missingReasonRequest
      (by decide) (by decide) (by decide),
   C4_submit_validation_bug.2 5 bob otherNoNotesRequest
      (by decide) (by decide) (by decide) (by decide)⟩

/-- C10: with the request `in_progress` and held by the caller, a UPC naming
no item makes `update_item_quantity` and `set_item_shortage` fail with the
Python `AttributeError` from the undefined `exceptions.item_not_found` (not a
structured item-not-found error), leaving the request — items,
`last_activity_at` and all — unchanged. -/
theorem C10_item_not_found_bug :
    (∀ (now : Nat) (upc : String) (upd : ItemQuantityUpdate) (u : User)
        (r : PickRequest),
      r.status = .in_progress → r.locked_by = some u.id →
      r.items.find? (fun i => i.upc = upc) = none →
      update_item_quantity now upc upd u r =
          .error (.attribute_error "item_not_found") ∧
        applyOp (.update_item_op now u upc upd) r = r) ∧
    (∀ (now : Nat) (upc : String) (upd : ItemShortageUpdate) (u : User)
        (r : PickRequest),
      r.status = .in_progress → r.locked_by = some u.id →
      r.items.find? (fun i => i.upc = upc) = none →
      set_item_shortage now upc upd u r =
          .error (.attribute_error "item_not_found") ∧
        applyOp (.set_shortage_op now u upc upd) r = r) := by
  constructor
  · intro now upc upd u r hs hl hnone
    have hv : verify_lock r u = .ok () := by
      unfold verify_lock
      rw [if_neg (by simp [hs]), if_neg (by simp [PickRequest.is_locked_by, hl])]
    have herr : update_item_quantity now upc upd u r =
        .error (.attribute_error "item_not_found") := by
      simp only [update_item_quantity, hv, hnone]
    exact ⟨herr, by simp [applyOp, applyExcept, herr]⟩
  · intro now upc upd u r hs hl hnone
    have hv : verify_lock r u = .ok () := by
      unfold verify_lock
      rw [if_neg (by simp [hs]), if_neg (by simp [PickRequest.is_locked_by, hl])]
    have herr : set_item_shortage now upc upd u r =
        .error (.attribute_error "item_not_found") := by
      simp only [set_item_shortage, hv, hnone]
    exact ⟨herr, by simp [applyOp, applyExcept, herr]⟩

/-- C10 witness: the concrete widget request with the unknown UPC `999`. -/
theorem C10_item_not_found_bug_witness :
    update_item_quantity 2 "999" (.increment 1) bob widgetRequest =
      .error (.attribute_error "item_not_found") ∧
    set_item_shortage 2 "999" ⟨.out_of_stock, none⟩ bob widgetRequest =
      .error (.attribute_error "item_not_found") ∧
    applyOp (.update_item_op 2 bob "999" (.increment 1)) widgetRequest =
      widgetRequest :=
  ⟨(C10_item_not_found_bug.1 2 "999" (.increment 1) bob widgetRequest
      (by decide) (by decide) (by decide)).1,
   (C10_item_not_found_bug.2 2 "999" ⟨.out_of_stock, none⟩ bob widgetRequest
      (by decide) (by decide) (by decide)).1,
   (C10_item_not_found_bug.1 2 "999" (.increment 1) bob widgetRequest
      (by decide) (by decide) (by decide)).2⟩

/-- Whitespace characters are not in the pattern's character class. -/
theorem pyIsSpace_not_nameChar {c : Char} (h : pyIsSpace c = true) :
    isNameChar c = false := by
  unfold pyIsSpace at h
  simp only [Bool.or_eq_true, decide_eq_true_eq] at h
  rcases h with (((((h | h) | h) | h) | h) | h) <;> subst h <;> decide

/-- A pattern match forces the length bounds, a letter head, and the
character class everywhere. -/
theorem matchesPattern_facts {s : String} (h : matchesPattern s = true) :
    3 ≤ s.length ∧ s.length ≤ 50 ∧ headIsAlpha s = true ∧
    ∀ c ∈ s.data, isNameChar c = true := by
  unfold matchesPattern at h
  cases hd : s.data with
  | nil => rw [hd] at h; cases h
  | cons c rest =>
    rw [hd] at h
    simp only [Bool.and_eq_true, decide_eq_true_eq] at h
    obtain ⟨⟨⟨hca, hall⟩, h2⟩, h49⟩ := h
    have hlen : s.length = rest.length + 1 := by
      have hsd : s.length = s.data.length := rfl
      rw [hsd, hd]
      rfl
    refine ⟨by omega, by omega, ?_, ?_⟩
    · unfold headIsAlpha
      rw [hd]
      exact hca
    · intro x hx
      rcases List.mem_cons.mp hx with hx | hx
      · subst hx
        unfold isNameChar
        simp [hca]
      · exact List.all_eq_true.mp hall x hx

/-- When the stripped input matches the pattern, `validate` accepts and
returns the lowercased stripped name; conversely acceptance forces the
pattern. -/
theorem validate_pattern (s : String) :
    (matchesPattern (pyStrip s) = true →
      RequestNameValidator_validate s =
        ⟨true, some (pyLower (pyStrip s)), none⟩) ∧
    ((RequestNameValidator_validate s).is_valid = true →
      matchesPattern (pyStrip s) = true) := by
  constructor
  · intro hpat
    obtain ⟨hl3, hl50, hhead, hchars⟩ := matchesPattern_facts hpat
    have hne : ¬ s = "" := by
      intro h
      subst h
      exact absurd hpat (by decide)
    have hsp : ¬ (pyStrip s).data.contains ' ' = true := by
      intro h
      have hc := hchars ' ' (List.elem_iff.mp h)
      exact absurd hc (by decide)
    simp only [RequestNameValidator_validate]
    rw [if_neg hne, if_neg hsp, if_neg (by omega), if_neg (by omega),
      if_neg (by simp [hhead]), if_neg (by simp [hpat])]
  · intro hv
    simp only [RequestNameValidator_validate] at hv
    split at hv
    · simp at hv
    · split at hv
      · simp at hv
      · split at hv
        · simp at hv
        · split at hv
          · simp at hv
          · split at hv
            · simp at hv
            · split at hv
              · simp at hv
              · rename_i h6
                simpa using h6

/-- C9: `RequestNameValidator.validate` trims the input, accepts exactly the
strings whose trimmed form matches `^[A-Za-z][A-Za-z0-9_-]{2,49}$`, returns
the accepted name lowercased, and rejects internal whitespace, lengths
outside 3..50 (2 rejected, 3 and 50 accepted, 51 rejected) and a non-letter
first character. -/
theorem C9_name_validator :
    (∀ s : String, (RequestNameValidator_validate s).is_valid = true ↔
      matchesPattern (pyStrip s) = true) ∧
    (∀ s : String, matchesPattern (pyStrip s) = true →
      RequestNameValidator_validate s =
        ⟨true, some (pyLower (pyStrip s)), none⟩) ∧
    (∀ (s : String) (c : Char), c ∈ (pyStrip s).data → pyIsSpace c = true →
      (RequestNameValidator_validate s).is_valid = false) ∧
    (∀ s : String, (pyStrip s).length < 3 ∨ 50 < (pyStrip s).length →
      (RequestNameValidator_validate s).is_valid = false) ∧
    (∀ s : String, headIsAlpha (pyStrip s) = false →
      (RequestNameValidator_validate s).is_valid = false) ∧
    (RequestNameValidator_validate "ab").is_valid = false ∧
    (RequestNameValidator_validate "abc").is_valid = true ∧
    (RequestNameValidator_validate
      "aaaaaaaaaaaaaaaaaaaaaaaaaaaaaaaaaaaaaaaaaaaaaaaaaa").is_valid = true ∧
    (RequestNameValidator_validate
      "aaaaaaaaaaaaaaaaaaaaaaaaaaaaaaaaaaaaaaaaaaaaaaaaaaa").is_valid = false := by
  refine ⟨?_, fun s => (validate_pattern s).1, ?_, ?_, ?_,
    by decide, by decide, by decide, by decide⟩
  · intro s
    constructor
    · exact (validate_pattern s).2
    · intro hpat
      rw [(validate_pattern s).1 hpat]
  · intro s c hc hspace
    by_contra hv
    rw [Bool.not_eq_false] at hv
    have hpat := (validate_pattern s).2 hv
    have := (matchesPattern_facts hpat).2.2.2 c hc
    rw [pyIsSpace_not_nameChar hspace] at this
    cases this
  · intro s hlen
    by_contra hv
    rw [Bool.not_eq_false] at hv
    have hpat := (validate_pattern s).2 hv
    obtain ⟨hl3, hl50, _⟩ := matchesPattern_facts hpat
    omega
  · intro s hhead
    by_contra hv
    rw [Bool.not_eq_false] at hv
    have hpat := (validate_pattern s).2 hv
    have hh := (matchesPattern_facts hpat).2.2.1
    rw [hhead] at hh
    cases hh

/-- C9 witness: the spec's scenario `"  Monday-Restock  "` normalizes to
`monday-restock`, via the acceptance conjunct. -/
theorem C9_name_validator_witness :
    RequestNameValidator_validate "  Monday-Restock  " =
      ⟨true, some "monday-restock", none⟩ := by
  rw [C9_name_validator.2.1 "  Monday-Restock  " (by decide)]
  decide
